import Mathlib

/-!
Shallow embedding of the upload-queue orchestrator in
`src/frontend/src/store/useUploadStore.ts` (the `useUploadStore` zustand
store and its `PDFUploadService`), together with proofs checking the
specification's claims about it.

Conventions of the embedding:
* TypeScript strings are `String`, numbers are `Nat`, `x?: T` fields are
  `Option T`.
* A `File` object is modelled by the two attributes the store reads from
  it: `size` and `type` (`FileMeta`).
* JavaScript truthiness of an optional string (`if (!initialError)`,
  `description ? ... : ...`) is `strOptTruthy`: `undefined` and the empty
  string are falsy.
* The store's asynchronous drive loop is modelled as a small-step system
  (`World`, `Event`, `stepEvent`): a `World` carries the store state, the
  set of in-flight transfers (dispatched `uploadPDF` calls that have not
  settled), and the queue of `setTimeout` callbacks with their delays.
  Each synchronous run of `processQueue` up to its suspension point
  (`await uploadPDF`) is the pure function `processTick`; the resumption
  after the `await` is `settleSuccessStore` / `settleFailStore`.
* `Date.now()` is an input: each `addFiles` event carries the timestamp
  `now` observed by the call.
-/

/-- Status of an upload item: `'pending' | 'uploading' | 'success' | 'error'`. -/
inductive Status where
  | pending
  | uploading
  | success
  | error
deriving DecidableEq, Repr

/-- The attributes of a DOM `File` object that the store reads: `file.size`
(bytes) and `file.type` (MIME type string). -/
structure FileMeta where
  size : Nat
  type : String
deriving DecidableEq, Repr

/-- The `UploadFile` interface of the store.  `file` is an `Option` only so
that the persisted form (where `partialize` writes `file: undefined`) can be
expressed; every item built by `addFiles` carries `some` meta. -/
structure UploadFile where
  id : String
  file : Option FileMeta
  title : String
  description : Option String
  status : Status
  progress : Nat
  error : Option String
  result : Option String
deriving DecidableEq, Repr

/-- The persistent fields of the `UploadState` interface: `files`,
`isUploading`, `currentUploadingId`. -/
structure UploadState where
  files : List UploadFile
  isUploading : Bool
  currentUploadingId : Option String
deriving DecidableEq, Repr

/-- JavaScript truthiness of a `string | undefined` value: `undefined` and
`""` are falsy, every other string is truthy. -/
def strOptTruthy : Option String → Bool
  | none => false
  | some s => !s.isEmpty

/-- The id assigned at creation time: the template literal
`` `${Date.now()}-${index}` ``. -/
def mkUploadId (now index : Nat) : String :=
  toString now ++ "-" ++ toString index

/-- The `newFiles` array built by `addFiles` from its arguments: one
`UploadFile` per input file, id `` `${Date.now()}-${index}` ``, title
disambiguated with a positional suffix when more than one file is given,
status `'error'` when `initialError` is truthy and `'pending'` otherwise. -/
def mkNewFiles (metas : List FileMeta) (baseTitle : String)
    (description : Option String) (initialError : Option String)
    (now : Nat) : List UploadFile :=
  metas.mapIdx fun index file =>
    { id := mkUploadId now index
      file := some file
      title := if metas.length = 1 then baseTitle
               else baseTitle ++ " - Part " ++ toString (index + 1)
      description := description
      status := if strOptTruthy initialError then Status.error else Status.pending
      progress := 0
      error := initialError
      result := none }

/-- The state update of `addFiles`: `files: [...state.files, ...newFiles]`. -/
def addFilesSet (s : UploadState) (newFiles : List UploadFile) : UploadState :=
  { s with files := s.files ++ newFiles }

/-- Command `removeFile`: `files: state.files.filter((file) => file.id !== id)`. -/
def removeFileSet (s : UploadState) (id : String) : UploadState :=
  { s with files := s.files.filter fun file => file.id ≠ id }

/-- Command `clearCompleted`: keep the files whose status is `'pending'` or
`'uploading'`. -/
def clearCompletedSet (s : UploadState) : UploadState :=
  { s with files := s.files.filter fun file =>
      file.status = Status.pending ∨ file.status = Status.uploading }

/-- Command `clearAll`: empty the queue and reset both activity markers. -/
def clearAllSet : UploadState :=
  { files := [], isUploading := false, currentUploadingId := none }

/-- Command `pauseUpload`: `isUploading: false, currentUploadingId: null`. -/
def pauseUploadSet (s : UploadState) : UploadState :=
  { s with isUploading := false, currentUploadingId := none }

/-- The state update of `retryFile`: map the file with the given id to
`status: 'pending', progress: 0, error: undefined`; note that the source
performs this for whatever status the file currently has. -/
def retryFileSet (s : UploadState) (id : String) : UploadState :=
  { s with files := s.files.map fun file =>
      if file.id = id then
        { file with status := Status.pending, progress := 0, error := none }
      else file }

/-- Internal action `updateFileStatus(id, status, progress = 0, error?, result?)`: the spread
`{ ...file, status, progress, error, result }` overwrites `error` and
`result` with the (possibly absent) arguments. -/
def updateFileStatus (s : UploadState) (id : String) (status : Status)
    (progress : Nat) (error : Option String) (result : Option String) :
    UploadState :=
  { s with files := s.files.map fun file =>
      if file.id = id then
        { file with status := status, progress := progress,
                    error := error, result := result }
      else file }

/-- Constant `MAX_FILE_SIZE = 10 * 1024 * 1024` (bytes). -/
def MAX_FILE_SIZE : Nat := 10 * 1024 * 1024

/-- Hundredths of a megabyte: rational rendering of the JavaScript
`(size / (1024*1024)).toFixed(2)` (round half up; the double rounding of
the source agrees on all inputs relevant here). -/
def mbHundredths (size : Nat) : Nat :=
  (size * 100 + 524288) / 1048576

/-- Decimal rendering with two fraction digits, as `toFixed(2)` prints. -/
def fmtMB (size : Nat) : String :=
  let h := mbHundredths size
  toString (h / 100) ++ "." ++ (if h % 100 < 10 then "0" else "") ++
    toString (h % 100)

/-- The oversize message built in `processQueue`. -/
def sizeErrMsg (size : Nat) : String :=
  "File size (" ++ fmtMB size ++
    " MB) exceeds the maximum allowed size of 10 MB"

/-- The wrong-type message built in `processQueue`; `file.type || 'unknown'`
falls back when the MIME string is empty. -/
def typeErrMsg (t : String) : String :=
  "File type \"" ++ (if t.isEmpty then "unknown" else t) ++
    "\" is not supported. Only PDF files are allowed"

/-- The message thrown by `PDFUploadService.uploadPDF` when
`localStorage.getItem("access_token")` is absent; the throw happens before
any `XMLHttpRequest` is created. -/
def authErrorMsg : String := "No authentication token found"

/-- Size and type of the file field of an item, defaulting to an empty meta;
in the source `file` is always present on in-memory items, the `Option` only
exists for the persisted shape. -/
def fileMetaOf (f : UploadFile) : FileMeta :=
  f.file.getD { size := 0, type := "" }

/-- The item `processQueue` works on: `pendingFiles[0]`, the lowest-index
file whose status is `'pending'`. -/
def selectPending (s : UploadState) : Option UploadFile :=
  (s.files.filter fun file => file.status = Status.pending).head?

/-- What one synchronous run of `processQueue` did, besides updating the
store. -/
inductive TickEffect where
  /-- Returned without doing anything further (inactive guard, or queue
  drained). -/
  | returned
  /-- A local validation failure: the item was marked `'error'` and
  `setTimeout(processQueue, delay)` was queued. -/
  | scheduled (delay : Nat)
  /-- The item was marked `'uploading'` and `uploadPDF` was invoked;
  `requested` records whether a token was found, hence whether an actual
  network request was issued. -/
  | dispatched (id : String) (requested : Bool)
deriving DecidableEq, Repr

/-- One synchronous run of `processQueue`, from its top to either an early
return, the queuing of a retry timeout, or the suspension point
`await PDFUploadService.uploadPDF(...)`.  `tokenAvail` is the environment's
answer to the `localStorage.getItem("access_token")` read performed
synchronously inside `uploadPDF` before any request is built. -/
def processTick (s : UploadState) (tokenAvail : Bool) :
    UploadState × TickEffect :=
  if !s.isUploading then (s, TickEffect.returned)
  else
    match selectPending s with
    | none =>
        ({ s with isUploading := false, currentUploadingId := none },
          TickEffect.returned)
    | some fileToUpload =>
        if (fileMetaOf fileToUpload).size > MAX_FILE_SIZE then
          let s1 := updateFileStatus s fileToUpload.id Status.error 0
            (some (sizeErrMsg (fileMetaOf fileToUpload).size)) none
          if s1.isUploading then (s1, TickEffect.scheduled 100)
          else (s1, TickEffect.returned)
        else if (fileMetaOf fileToUpload).type ≠ "application/pdf" then
          let s1 := updateFileStatus s fileToUpload.id Status.error 0
            (some (typeErrMsg (fileMetaOf fileToUpload).type)) none
          if s1.isUploading then (s1, TickEffect.scheduled 100)
          else (s1, TickEffect.returned)
        else
          let s1 := { s with currentUploadingId := some fileToUpload.id }
          let s2 := updateFileStatus s1 fileToUpload.id Status.uploading 0
            none none
          (s2, TickEffect.dispatched fileToUpload.id tokenAvail)

/-- The resumption after a successful `await uploadPDF`: mark the item
`'success'` with progress 100 and the server result, then, if still active,
queue the next run with the 500 ms inter-upload delay.  Returns the new
store and the queued delay, if any. -/
def settleSuccessStore (s : UploadState) (id : String) (result : String) :
    UploadState × Option Nat :=
  let s1 := updateFileStatus s id Status.success 100 none (some result)
  (s1, if s1.isUploading then some 500 else none)

/-- The resumption after a failed `await uploadPDF` (the `catch` branch):
mark the item `'error'` with the failure message, then, if still active,
queue the next run with the longer 1000 ms after-error delay. -/
def settleFailStore (s : UploadState) (id : String) (msg : String) :
    UploadState × Option Nat :=
  let s1 := updateFileStatus s id Status.error 0 (some msg) none
  (s1, if s1.isUploading then some 1000 else none)

/-- A dispatched, not yet settled `uploadPDF` call.  `requested = false`
means the token read failed, so the call will reject with
`authErrorMsg` and no network request was ever issued. -/
structure Flight where
  id : String
  requested : Bool
deriving DecidableEq, Repr

/-- The whole observable system: the store, the in-flight transfers, the
queued `setTimeout` delays, and a counter of network requests issued. -/
structure World where
  store : UploadState
  inFlight : List Flight
  timeouts : List Nat
  requests : Nat
deriving DecidableEq, Repr

/-- The initial store: `files: [], isUploading: false,
currentUploadingId: null`. -/
def initialWorld : World :=
  { store := clearAllSet, inFlight := [], timeouts := [], requests := 0 }

/-- Run one `processQueue` invocation inside a `World`. -/
def runTickW (w : World) (tokenAvail : Bool) : World :=
  match processTick w.store tokenAvail with
  | (s, TickEffect.returned) => { w with store := s }
  | (s, TickEffect.scheduled d) =>
      { w with store := s, timeouts := w.timeouts ++ [d] }
  | (s, TickEffect.dispatched id req) =>
      { w with store := s,
               inFlight := w.inFlight ++ [{ id := id, requested := req }],
               requests := w.requests + (if req then 1 else 0) }

/-- Command `startUpload`: if not uploading, set the flag and run `processQueue`
(synchronously up to its suspension point). -/
def startUploadW (w : World) (tokenAvail : Bool) : World :=
  if !w.store.isUploading then
    runTickW { w with store := { w.store with isUploading := true } }
      tokenAvail
  else w

/-- Command `addFiles`: append the new items, then
`if (!initialError && !get().isUploading) get().startUpload()`. -/
def addFilesW (w : World) (metas : List FileMeta) (baseTitle : String)
    (description : Option String) (initialError : Option String)
    (now : Nat) (tokenAvail : Bool) : World :=
  let w1 := { w with
    store := addFilesSet w.store
      (mkNewFiles metas baseTitle description initialError now) }
  if !strOptTruthy initialError && !w1.store.isUploading then
    startUploadW w1 tokenAvail
  else w1

/-- Command `retryFile`: reset the item, then
`if (!get().isUploading) get().startUpload()`. -/
def retryFileW (w : World) (id : String) (tokenAvail : Bool) : World :=
  let w1 := { w with store := retryFileSet w.store id }
  if !w1.store.isUploading then startUploadW w1 tokenAvail else w1

/-- Command `removeFile` lifted to the world. -/
def removeFileW (w : World) (id : String) : World :=
  { w with store := removeFileSet w.store id }

/-- Command `clearCompleted` lifted to the world. -/
def clearCompletedW (w : World) : World :=
  { w with store := clearCompletedSet w.store }

/-- Command `clearAll` lifted to the world; in-flight transfers are not aborted. -/
def clearAllW (w : World) : World :=
  { w with store := clearAllSet }

/-- Command `pauseUpload` lifted to the world; the in-flight transfer, if any, is
not aborted. -/
def pauseUploadW (w : World) : World :=
  { w with store := pauseUploadSet w.store }

/-- Outcome of a transfer chosen by the environment when it settles. -/
inductive TransferResult where
  | ok (result : String)
  | fail (msg : String)
deriving DecidableEq, Repr

/-- A queued `setTimeout(processQueue, _)` callback fires (`j` selects which
of the queued callbacks; real timers fire in delay order, and none of the
properties below depends on the order). -/
def timerFireW (w : World) (j : Nat) (tokenAvail : Bool) : World :=
  if j < w.timeouts.length then
    runTickW { w with timeouts := w.timeouts.eraseIdx j } tokenAvail
  else w

/-- An in-flight transfer settles.  A flight whose token read failed always
rejects with `authErrorMsg`; otherwise the environment chooses the result. -/
def settleW (w : World) (j : Nat) (r : TransferResult) : World :=
  match w.inFlight[j]? with
  | none => w
  | some fl =>
      let outcome := if fl.requested then r else TransferResult.fail authErrorMsg
      let rest := w.inFlight.eraseIdx j
      match outcome with
      | TransferResult.ok res =>
          let p := settleSuccessStore w.store fl.id res
          { w with store := p.1, inFlight := rest,
                   timeouts := w.timeouts ++ p.2.toList }
      | TransferResult.fail msg =>
          let p := settleFailStore w.store fl.id msg
          { w with store := p.1, inFlight := rest,
                   timeouts := w.timeouts ++ p.2.toList }

/-- A progress callback of an in-flight transfer fires:
`updateFileStatus(id, 'uploading', progress)`.  Only flights that issued a
request report progress. -/
def progressW (w : World) (j p : Nat) : World :=
  match w.inFlight[j]? with
  | none => w
  | some fl =>
      if fl.requested then
        { w with store :=
            updateFileStatus w.store fl.id Status.uploading p none none }
      else w

/-- The observable events of the system: the UI commands and the
asynchronous callbacks. -/
inductive Event where
  | addFiles (metas : List FileMeta) (baseTitle : String)
      (description : Option String) (initialError : Option String)
      (now : Nat) (tokenAvail : Bool)
  | removeFile (id : String)
  | clearCompleted
  | clearAll
  | startUpload (tokenAvail : Bool)
  | pauseUpload
  | retryFile (id : String) (tokenAvail : Bool)
  | timerFire (j : Nat) (tokenAvail : Bool)
  | settle (j : Nat) (r : TransferResult)
  | progress (j p : Nat)
deriving DecidableEq, Repr

/-- Interpret one event. -/
def stepEvent (w : World) : Event → World
  | Event.addFiles metas baseTitle description initialError now tokenAvail =>
      addFilesW w metas baseTitle description initialError now tokenAvail
  | Event.removeFile id => removeFileW w id
  | Event.clearCompleted => clearCompletedW w
  | Event.clearAll => clearAllW w
  | Event.startUpload tokenAvail => startUploadW w tokenAvail
  | Event.pauseUpload => pauseUploadW w
  | Event.retryFile id tokenAvail => retryFileW w id tokenAvail
  | Event.timerFire j tokenAvail => timerFireW w j tokenAvail
  | Event.settle j r => settleW w j r
  | Event.progress j p => progressW w j p

/-- Run an event trace. -/
def runEvents (w : World) (es : List Event) : World :=
  es.foldl stepEvent w

/-- The persisted form of one item: `{ ...file, file: undefined }`. -/
def stripPayload (f : UploadFile) : UploadFile :=
  { f with file := none }

/-- The `partialize` function of the persist middleware: strip every
payload, persist `isUploading: false` and `currentUploadingId: null`. -/
def persistSnapshot (s : UploadState) : UploadState :=
  { files := s.files.map stripPayload
    isUploading := false
    currentUploadingId := none }

/-- The `onRehydrateStorage` cleanup: drop every file whose payload is
absent, force `isUploading: false` and `currentUploadingId: null`. -/
def rehydrateState (s : UploadState) : UploadState :=
  { files := s.files.filter fun file => file.file ≠ none
    isUploading := false
    currentUploadingId := none }

/-- The store created at application start: `files: [], isUploading: false,
currentUploadingId: null` (the same record `clearAll` resets to). -/
def initialState : UploadState :=
  { files := [], isUploading := false, currentUploadingId := none }

/-- Decimal read-back of a digit string; proof-side inverse of
`Nat.toDigits 10`. -/
def readDigits (cs : List Char) : Nat :=
  cs.foldl (fun a c => a * 10 + (c.toNat - 48)) 0

/-- The arguments of one `addFiles` call, together with the `Date.now()`
value the call observed. -/
structure AddCall where
  metas : List FileMeta
  baseTitle : String
  description : Option String
  initialError : Option String
  now : Nat
deriving DecidableEq, Repr

/-- The items created by one `addFiles` call. -/
def createdFiles (c : AddCall) : List UploadFile :=
  mkNewFiles c.metas c.baseTitle c.description c.initialError c.now

/-- The ids assigned by one `addFiles` call. -/
def createdIds (c : AddCall) : List String :=
  (createdFiles c).map fun f => f.id

/-- All ids assigned over a sequence of `addFiles` calls, in order. -/
def assignedIds : List AddCall → List String
  | [] => []
  | c :: cs => createdIds c ++ assignedIds cs

/-- The `addFiles` state update applied to one call's arguments. -/
def applyAddSet (s : UploadState) (c : AddCall) : UploadState :=
  addFilesSet s (createdFiles c)

/-- Concatenation of the items created by each call, in submission order. -/
def concatCreated : List AddCall → List UploadFile
  | [] => []
  | c :: cs => createdFiles c ++ concatCreated cs

/-! Concrete fixtures used by witnesses and counterexamples. -/

/-- A small valid PDF file attribute record. -/
def pdfMeta : FileMeta := { size := 1000, type := "application/pdf" }

/-- A 15 MB PDF file attribute record, above the 10 MB limit. -/
def bigMeta : FileMeta := { size := 15728640, type := "application/pdf" }

/-- An item that has already completed successfully. -/
def successItem : UploadFile :=
  { id := "a", file := some pdfMeta, title := "T", description := none,
    status := Status.success, progress := 100, error := none,
    result := some "r" }

/-- A pending item with the given id and file attributes. -/
def pendingItem (id : String) (m : FileMeta) : UploadFile :=
  { id := id, file := some m, title := "T", description := none,
    status := Status.pending, progress := 0, error := none, result := none }

/-- A queue holding one completed item, idle. -/
def s1c : UploadState :=
  { files := [successItem], isUploading := false, currentUploadingId := none }

/-- A queue holding one completed item, idle (fixture for the persistence
round trip). -/
def s3c : UploadState :=
  { files := [successItem], isUploading := false, currentUploadingId := none }

/-- An active queue whose head pending item is oversized. -/
def s5c : UploadState :=
  { files := [pendingItem "0-0" bigMeta], isUploading := true,
    currentUploadingId := none }

/-- An active queue whose head pending item passes local validation. -/
def s6c : UploadState :=
  { files := [pendingItem "0-0" pdfMeta], isUploading := true,
    currentUploadingId := none }

/-- A world with one in-flight attempt whose token read failed. -/
def w6c : World :=
  { store := s6c, inFlight := [{ id := "0-0", requested := false }],
    timeouts := [], requests := 0 }

/-- An active empty-queue world (fixture for the retry witness). -/
def w1w : World :=
  { store := { files := [], isUploading := true, currentUploadingId := none },
    inFlight := [], timeouts := [], requests := 0 }

/-- The event trace of claim C2: add two valid files (auto-start dispatches
the first), pause while the first transfer is in flight, then start again
before it settles. -/
def c2Trace : List Event :=
  [Event.addFiles [pdfMeta, pdfMeta] "Doc" none none 0 true,
   Event.pauseUpload,
   Event.startUpload true]

/-- An `addFiles` call observed at millisecond 0. -/
def callSameA : AddCall :=
  { metas := [pdfMeta], baseTitle := "T", description := none,
    initialError := none, now := 0 }

/-- Another `addFiles` call observed at the same millisecond 0. -/
def callSameB : AddCall :=
  { metas := [pdfMeta], baseTitle := "U", description := none,
    initialError := none, now := 0 }

/-- An `addFiles` call observed at millisecond 1. -/
def callLater : AddCall :=
  { metas := [pdfMeta], baseTitle := "V", description := none,
    initialError := none, now := 1 }

/-- Fixture items in the four statuses. -/
def p8 : UploadFile := pendingItem "p" pdfMeta

/-- An item currently uploading. -/
def u8 : UploadFile := { pendingItem "u" pdfMeta with status := Status.uploading }

/-- An item that succeeded. -/
def v8 : UploadFile := { pendingItem "s" pdfMeta with status := Status.success }

/-- An item that failed. -/
def e8 : UploadFile :=
  { pendingItem "e" pdfMeta with status := Status.error, error := some "boom" }

/-- A queue with one item in each status. -/
def s8c : UploadState :=
  { files := [v8, e8, p8, u8], isUploading := false,
    currentUploadingId := none }

/-- The item created by `addFiles([pdfMeta], "T", undefined, "bad file")`
observed at millisecond 7. -/
def errCreated : UploadFile :=
  { id := "7-0", file := some pdfMeta, title := "T", description := none,
    status := Status.error, progress := 0, error := some "bad file",
    result := none }

/-- A queue whose only item is currently referenced by
`currentUploadingId`. -/
def s10c : UploadState :=
  { files := [pendingItem "u" pdfMeta], isUploading := true,
    currentUploadingId := some "u" }

/-! Helper lemmas: decimal rendering of `Nat` and injectivity of the
assigned id strings. -/

theorem toDigitsCore_shift : ∀ (fuel n : Nat) (ds : List Char),
    Nat.toDigitsCore 10 fuel n ds = Nat.toDigitsCore 10 fuel n [] ++ ds
  | 0, n, ds => by simp [Nat.toDigitsCore]
  | fuel + 1, n, ds => by
    simp only [Nat.toDigitsCore]
    by_cases h : n / 10 = 0
    · simp [h]
    · simp only [if_neg h]
      rw [toDigitsCore_shift fuel (n / 10) [Nat.digitChar (n % 10)],
          toDigitsCore_shift fuel (n / 10) (Nat.digitChar (n % 10) :: ds)]
      simp

theorem toDigitsCore_fuel (n : Nat) : ∀ (f₁ f₂ : Nat), n < f₁ → n < f₂ →
    Nat.toDigitsCore 10 f₁ n [] = Nat.toDigitsCore 10 f₂ n [] := by
  induction n using Nat.strongRecOn with
  | ind n ih =>
    intro f₁ f₂ h₁ h₂
    match f₁, f₂ with
    | g₁ + 1, g₂ + 1 =>
      simp only [Nat.toDigitsCore]
      by_cases h : n / 10 = 0
      · simp [h]
      · simp only [if_neg h]
        rw [toDigitsCore_shift g₁, toDigitsCore_shift g₂]
        have hn : n / 10 < n := Nat.div_lt_self (by omega) (by omega)
        rw [ih (n / 10) hn g₁ g₂ (by omega) (by omega)]

theorem digitChar_toNat {d : Nat} (h : d < 10) :
    (Nat.digitChar d).toNat = 48 + d := by
  interval_cases d <;> decide

theorem readDigits_append (cs : List Char) (c : Char) :
    readDigits (cs ++ [c]) = readDigits cs * 10 + (c.toNat - 48) := by
  simp [readDigits, List.foldl_append]

theorem readDigits_toDigits (n : Nat) :
    readDigits (Nat.toDigits 10 n) = n := by
  induction n using Nat.strongRecOn with
  | ind n ih =>
    show readDigits (Nat.toDigitsCore 10 (n + 1) n []) = n
    simp only [Nat.toDigitsCore]
    by_cases h : n / 10 = 0
    · have hn : n < 10 := by omega
      simp only [h, if_pos]
      simp [readDigits, digitChar_toNat (show n % 10 < 10 by omega)]
      omega
    · simp only [if_neg h]
      rw [toDigitsCore_shift]
      have hn : n / 10 < n := Nat.div_lt_self (by omega) (by omega)
      rw [toDigitsCore_fuel (n / 10) n (n / 10 + 1) (by omega) (by omega)]
      rw [readDigits_append]
      rw [show Nat.toDigitsCore 10 (n / 10 + 1) (n / 10) [] =
            Nat.toDigits 10 (n / 10) from rfl]
      rw [ih (n / 10) hn]
      rw [digitChar_toNat (show n % 10 < 10 by omega)]
      omega

theorem toDigits_digit_range (n : Nat) :
    ∀ c ∈ Nat.toDigits 10 n, 48 ≤ c.toNat ∧ c.toNat ≤ 57 := by
  induction n using Nat.strongRecOn with
  | ind n ih =>
    intro c hc
    rw [show Nat.toDigits 10 n = Nat.toDigitsCore 10 (n + 1) n [] from rfl]
      at hc
    simp only [Nat.toDigitsCore] at hc
    by_cases h : n / 10 = 0
    · rw [if_pos h] at hc
      simp at hc
      subst hc
      rw [digitChar_toNat (show n % 10 < 10 by omega)]
      omega
    · rw [if_neg h] at hc
      rw [toDigitsCore_shift] at hc
      have hn : n / 10 < n := Nat.div_lt_self (by omega) (by omega)
      rw [toDigitsCore_fuel (n / 10) n (n / 10 + 1) (by omega) (by omega)]
        at hc
      rcases List.mem_append.mp hc with hc | hc
      · exact ih (n / 10) hn c hc
      · simp at hc
        subst hc
        rw [digitChar_toNat (show n % 10 < 10 by omega)]
        omega

theorem append_sep_inj : ∀ (a c : List Char), (∀ x ∈ a, x ≠ '-') →
    (∀ x ∈ c, x ≠ '-') → ∀ (b d : List Char),
    a ++ '-' :: b = c ++ '-' :: d → a = c ∧ b = d
  | [], [], _, _, b, d, h => by
      simp at h
      exact ⟨rfl, h⟩
  | [], y :: c, _, hc, b, d, h => by
      simp at h
      exact absurd h.1.symm (hc y (by simp))
  | x :: a, [], ha, _, b, d, h => by
      simp at h
      exact absurd h.1 (ha x (by simp))
  | x :: a, y :: c, ha, hc, b, d, h => by
      simp only [List.cons_append, List.cons.injEq] at h
      obtain ⟨rfl, h2⟩ := h
      obtain ⟨rfl, rfl⟩ := append_sep_inj a c
        (fun z hz => ha z (by simp [hz]))
        (fun z hz => hc z (by simp [hz])) b d h2
      exact ⟨rfl, rfl⟩

theorem toString_nat_data (n : Nat) :
    (toString n).data = Nat.toDigits 10 n := rfl

theorem mkUploadId_data (t i : Nat) :
    (mkUploadId t i).data = Nat.toDigits 10 t ++ '-' :: Nat.toDigits 10 i := by
  show ((toString t ++ "-" ++ toString i)).data = _
  rw [String.data_append, String.data_append, toString_nat_data,
      toString_nat_data]
  have hdash : ("-" : String).data = ['-'] := rfl
  rw [hdash, List.append_assoc]
  rfl

theorem toDigits_no_dash (n : Nat) : ∀ x ∈ Nat.toDigits 10 n, x ≠ '-' := by
  intro x hx he
  have h := toDigits_digit_range n x hx
  subst he
  have h45 : ('-' : Char).toNat = 45 := rfl
  omega

theorem mkUploadId_inj {t₁ i₁ t₂ i₂ : Nat}
    (h : mkUploadId t₁ i₁ = mkUploadId t₂ i₂) : t₁ = t₂ ∧ i₁ = i₂ := by
  have hd := congrArg String.data h
  rw [mkUploadId_data, mkUploadId_data] at hd
  obtain ⟨h₁, h₂⟩ := append_sep_inj _ _ (toDigits_no_dash t₁)
    (toDigits_no_dash t₂) _ _ hd
  constructor
  · have := readDigits_toDigits t₁
    rw [h₁, readDigits_toDigits] at this
    omega
  · have := readDigits_toDigits i₁
    rw [h₂, readDigits_toDigits] at this
    omega

theorem createdIds_eq (c : AddCall) :
    createdIds c = (List.range c.metas.length).map (mkUploadId c.now) := by
  apply List.ext_getElem?
  intro i
  simp only [createdIds, createdFiles, mkNewFiles, List.getElem?_map,
    List.getElem?_mapIdx, List.getElem?_range]
  by_cases hi : i < c.metas.length
  · simp [List.getElem?_eq_getElem hi, hi]
  · rw [List.getElem?_eq_none (by simp [le_of_not_lt hi]),
        List.getElem?_eq_none (by simp [le_of_not_lt hi])]
    rfl

theorem mkUploadId_inj_right (now : Nat) :
    Function.Injective (mkUploadId now) := fun _ _ h => (mkUploadId_inj h).2

theorem createdIds_nodup (c : AddCall) : (createdIds c).Nodup := by
  rw [createdIds_eq]
  exact (List.nodup_range _).map (mkUploadId_inj_right c.now)

theorem createdIds_disjoint {c₁ c₂ : AddCall} (h : c₁.now ≠ c₂.now) :
    ∀ x ∈ createdIds c₁, x ∉ createdIds c₂ := by
  intro x hx hx₂
  rw [createdIds_eq] at hx hx₂
  simp only [List.mem_map, List.mem_range] at hx hx₂
  obtain ⟨i, _, rfl⟩ := hx
  obtain ⟨j, _, hij⟩ := hx₂
  exact h (mkUploadId_inj hij).1.symm

theorem mem_assignedIds {x : String} : ∀ {calls : List AddCall},
    x ∈ assignedIds calls → ∃ c ∈ calls, x ∈ createdIds c
  | [], h => by simp [assignedIds] at h
  | c :: cs, h => by
      rcases List.mem_append.mp h with h | h
      · exact ⟨c, by simp, h⟩
      · obtain ⟨c', hc', hx⟩ := mem_assignedIds h
        exact ⟨c', by simp [hc'], hx⟩

theorem assignedIds_nodup : ∀ (calls : List AddCall),
    calls.Pairwise (fun c₁ c₂ => c₁.now ≠ c₂.now) →
    (assignedIds calls).Nodup
  | [], _ => by simp [assignedIds]
  | c :: cs, h => by
      rw [assignedIds, List.nodup_append]
      obtain ⟨hhead, htail⟩ := List.pairwise_cons.mp h
      refine ⟨createdIds_nodup c, assignedIds_nodup cs htail, ?_⟩
      intro x hx hx'
      obtain ⟨c', hc', hxc'⟩ := mem_assignedIds hx'
      exact createdIds_disjoint (hhead c' hc') x hx hxc'

/-! Claim theorems. -/

/-- Claim C1 counterexample: `retryFile` on an item in `success` status (not
`error`) does not leave the state unchanged — the item is reset to
`pending`, refuting the claim at this concrete input. -/
theorem retry_on_success_item_changes_state :
    successItem.status = Status.success ∧
    retryFileSet s1c "a" ≠ s1c ∧
    ((retryFileSet s1c "a").files.map fun f => f.status) =
      [Status.pending] := by decide

/-- Claim C1 (amended): `retryFile(id)` resets every item bearing that id to
`pending` with progress 0 and error cleared, regardless of its prior status
(the source performs no `error`-status check); items with other ids and the
activity flags are unchanged by the state update, and when the orchestrator
is already uploading the command performs nothing beyond that update. -/
theorem retryFile_resets_matching_item (s : UploadState) (id : String) :
    (retryFileSet s id).isUploading = s.isUploading ∧
    (retryFileSet s id).currentUploadingId = s.currentUploadingId ∧
    (∀ i : Nat, (retryFileSet s id).files[i]? = (s.files[i]?).map fun f =>
      if f.id = id then
        { f with status := Status.pending, progress := 0, error := none }
      else f) ∧
    (∀ (w : World) (tok : Bool), w.store.isUploading = true →
      retryFileW w id tok = { w with store := retryFileSet w.store id }) := by
  refine ⟨rfl, rfl, ?_, ?_⟩
  · intro i
    simp [retryFileSet, List.getElem?_map]
  · intro w tok h
    simp [retryFileW, retryFileSet, h]

/-- Witness for the amended C1 theorem at a concrete world. -/
theorem retryFile_resets_matching_item_witness :
    retryFileW w1w "a" true = { w1w with store := retryFileSet w1w.store "a" } :=
  (retryFile_resets_matching_item w1w.store "a").2.2.2 w1w true rfl

/-- Claim C3 counterexample: persisting a one-item queue and restoring it
does not yield the persisted item set — the restore drops every persisted
item, because `partialize` stripped every payload and the rehydration
filter removes payload-less items. -/
theorem persist_restore_not_equivalent :
    (persistSnapshot s3c).files.length = 1 ∧
    (rehydrateState (persistSnapshot s3c)).files = [] ∧
    (rehydrateState (persistSnapshot s3c)).files ≠
      (persistSnapshot s3c).files := by decide

/-- Claim C3 (amended): persisting then restoring any queue state yields the
empty item set with `isUploading = false` and `currentUploadingId = none`:
every persisted item has its payload stripped, and restoration drops every
item whose payload is absent. -/
theorem persist_restore_yields_empty (s : UploadState) :
    rehydrateState (persistSnapshot s) = initialState := by
  simp only [rehydrateState, persistSnapshot, initialState]
  congr 1
  simp [List.filter_map, Function.comp, stripPayload]

/-- Claim C2 (code bug exhibited): running `addFiles` with two valid PDFs
(which auto-starts and dispatches the first item), then `pauseUpload` while
the first transfer is still in flight, then `startUpload` again, reaches an
observable state in which two items have status `uploading` and two
transfers are in flight simultaneously. -/
theorem two_items_uploading_after_pause_restart :
    ((runEvents initialWorld c2Trace).store.files.filter fun f =>
        f.status = Status.uploading).length = 2 ∧
    (runEvents initialWorld c2Trace).inFlight.length = 2 := by decide

/-- Claim C4 counterexample: two `addFiles` calls observed in the same
millisecond assign the same id twice, refuting lifetime id uniqueness. -/
theorem duplicate_ids_same_millisecond :
    assignedIds [callSameA, callSameB] = ["0-0", "0-0"] ∧
    ¬ (assignedIds [callSameA, callSameB]).Nodup := by decide

/-- Claim C4 (amended): provided every `addFiles` call observes a distinct
`Date.now()` millisecond, all ids assigned over the lifetime of the queue
are pairwise distinct, and the ids of any earlier call (including those of
since-removed items) are never assigned again by a later call. -/
theorem assigned_ids_nodup_of_distinct_times (calls : List AddCall)
    (h : calls.Pairwise fun c₁ c₂ => c₁.now ≠ c₂.now) :
    (assignedIds calls).Nodup ∧
    calls.Pairwise fun c₁ c₂ => ∀ x ∈ createdIds c₁, x ∉ createdIds c₂ :=
  ⟨assignedIds_nodup calls h, h.imp fun hne => createdIds_disjoint hne⟩

/-- Witness for the amended C4 theorem at two calls with distinct
timestamps. -/
theorem assigned_ids_nodup_witness :
    (assignedIds [callSameA, callLater]).Nodup :=
  (assigned_ids_nodup_of_distinct_times [callSameA, callLater]
    (by decide)).1

/-- Helper: the only delay a tick ever schedules is the 100 ms
validation-failure delay. -/
theorem processTick_scheduled {s s' : UploadState} {tok : Bool} {d : Nat}
    (h : processTick s tok = (s', TickEffect.scheduled d)) : d = 100 := by
  simp only [processTick] at h
  repeat' split at h
  all_goals simp_all

/-- Helper: the item selected by `processQueue` is a member of the queue and
has status `pending`. -/
theorem selectPending_mem {s : UploadState} {f : UploadFile}
    (h : selectPending s = some f) :
    f ∈ s.files ∧ f.status = Status.pending := by
  have hf : f ∈ s.files.filter fun file => file.status = Status.pending := by
    unfold selectPending at h
    cases hl : s.files.filter (fun file => file.status = Status.pending) with
    | nil => rw [hl] at h; simp at h
    | cons a t =>
        rw [hl] at h
        simp at h
        rw [← h]
        exact List.mem_cons_self a t
  have hm := List.mem_filter.mp hf
  exact ⟨hm.1, by simpa using hm.2⟩

/-- Helper: a member of the updated queue that bears the updated id carries
exactly the written fields. -/
theorem mem_updateFileStatus {s : UploadState} {id : String} {st : Status}
    {p : Nat} {e r : Option String} {f : UploadFile}
    (hf : f ∈ (updateFileStatus s id st p e r).files) (hid : f.id = id) :
    f.status = st ∧ f.progress = p ∧ f.error = e ∧ f.result = r := by
  obtain ⟨x, hx, rfl⟩ := List.mem_map.mp hf
  by_cases hxi : x.id = id
  · simp [hxi]
  · simp [hxi] at hid

/-- Helper: a dispatch carries the environment's token answer, targets the
selected pending item, and leaves the store with that item marked
`uploading` and `currentUploadingId` set. -/
theorem processTick_dispatched {s s' : UploadState} {tok req : Bool}
    {id : String}
    (h : processTick s tok = (s', TickEffect.dispatched id req)) :
    req = tok ∧
    ∃ f, selectPending s = some f ∧ f.id = id ∧
      s' = updateFileStatus { s with currentUploadingId := some f.id } f.id
        Status.uploading 0 none none := by
  simp only [processTick] at h
  repeat' split at h
  all_goals simp_all
  all_goals (
    obtain ⟨hs', hid, htok⟩ := h
    subst hid
    exact hs'.symm)

/-- Claim C5 counterexample: a local-validation-failure settlement (which
ends in `error`) schedules the 100 ms delay, which is shorter — not longer —
than the 500 ms delay scheduled after a `success` settlement. -/
theorem validation_error_delay_shorter_than_success :
    (processTick s5c true).2 = TickEffect.scheduled 100 ∧
    ((processTick s5c true).1.files.map fun f => f.status) = [Status.error] ∧
    (settleSuccessStore s6c "0-0" "r").2 = some 500 ∧
    ¬ ((100 : Nat) > 500) := by decide

/-- Claim C5 (amended): while the orchestrator is active every settlement
schedules a strictly positive re-entry delay — 100 ms after a local
validation failure, 500 ms after success, 1000 ms after a transfer (or
credential) failure; the transfer-failure delay is strictly longer than the
success delay, but the validation-failure delay is strictly shorter. -/
theorem settlement_delays (s : UploadState) :
    (∀ (tok : Bool) (s' : UploadState) (d : Nat),
      processTick s tok = (s', TickEffect.scheduled d) → d = 100 ∧ 0 < d) ∧
    (∀ id res : String, s.isUploading = true →
      (settleSuccessStore s id res).2 = some 500) ∧
    (∀ id msg : String, s.isUploading = true →
      (settleFailStore s id msg).2 = some 1000) ∧
    (0 : Nat) < 100 ∧ (0 : Nat) < 500 ∧ (0 : Nat) < 1000 ∧
    (500 : Nat) < 1000 ∧ (100 : Nat) < 500 := by
  refine ⟨?_, ?_, ?_, by omega, by omega, by omega, by omega, by omega⟩
  · intro tok s' d h
    have := processTick_scheduled h
    omega
  · intro id res h
    simp [settleSuccessStore, updateFileStatus, h]
  · intro id msg h
    simp [settleFailStore, updateFileStatus, h]

/-- Witness for the amended C5 theorem at a concrete active state. -/
theorem settlement_delays_witness :
    (settleFailStore s6c "0-0" "boom").2 = some 1000 :=
  (settlement_delays s6c).2.2.1 "0-0" "boom" rfl

/-- Claim C6 counterexample: on a tick whose selected item passes local
validation but whose token read fails, the item is first marked
`uploading` (the observable state right after the tick), refuting the
claim's "without ever taking status `uploading`" at this concrete input. -/
theorem no_token_item_takes_uploading_status :
    (processTick s6c false).2 = TickEffect.dispatched "0-0" false ∧
    ((processTick s6c false).1.files.map fun f => f.status) =
      [Status.uploading] := by decide

/-- Claim C6 (amended): on a tick with no token available the dispatch
issues no network request and marks the selected item `uploading` (setting
`currentUploadingId`); the attempt then settles as `error` with the
authentication message `"No authentication token found"`, and when the
orchestrator is still active at settlement the next tick is scheduled
(after the 1000 ms error delay). -/
theorem credential_failure_behavior :
    (∀ (s s' : UploadState) (id : String) (req : Bool),
      processTick s false = (s', TickEffect.dispatched id req) →
      req = false ∧ s'.currentUploadingId = some id ∧
      ∀ f ∈ s'.files, f.id = id →
        f.status = Status.uploading ∧ f.progress = 0) ∧
    (∀ w : World, (runTickW w false).requests = w.requests) ∧
    (∀ (w : World) (j : Nat) (r : TransferResult) (fl : Flight),
      w.inFlight[j]? = some fl → fl.requested = false →
      (settleW w j r).store = (settleFailStore w.store fl.id authErrorMsg).1 ∧
      (settleW w j r).timeouts = w.timeouts ++
        (if w.store.isUploading then [1000] else [])) ∧
    (∀ (s : UploadState) (id : String),
      ∀ f ∈ (settleFailStore s id authErrorMsg).1.files, f.id = id →
        f.status = Status.error ∧ f.error = some authErrorMsg) := by
  refine ⟨?_, ?_, ?_, ?_⟩
  · intro s s' id req h
    obtain ⟨hreq, f, hsel, hid, hs'⟩ := processTick_dispatched h
    subst hs'
    refine ⟨hreq, by simp [updateFileStatus, hid], ?_⟩
    intro g hg hgid
    have := mem_updateFileStatus hg (by rw [hgid, ← hid])
    exact ⟨this.1, this.2.1⟩
  · intro w
    unfold runTickW
    cases h : processTick w.store false with
    | mk s eff =>
      cases eff with
      | returned => rfl
      | scheduled d => rfl
      | dispatched id req =>
          have hreq := (processTick_dispatched h).1
          subst hreq
          simp
  · intro w j r fl hj hreq
    unfold settleW
    rw [hj]
    simp only [hreq, Bool.false_eq_true, if_neg, ite_false]
    constructor
    · trivial
    · simp only [settleFailStore, updateFileStatus]
      by_cases hb : w.store.isUploading = true <;> simp [hb]
  · intro s id f hf hid
    have := mem_updateFileStatus hf hid
    exact ⟨this.1, this.2.2.1⟩

/-- Witness for the amended C6 theorem: settling the unrequested flight of
`w6c` — even with an `ok` environment result — errors the item with the
authentication message. -/
theorem credential_failure_behavior_witness :
    (settleW w6c 0 (TransferResult.ok "r")).store =
      (settleFailStore w6c.store "0-0" authErrorMsg).1 :=
  (credential_failure_behavior.2.2.1 w6c 0 (TransferResult.ok "r")
    { id := "0-0", requested := false } rfl rfl).1

/-- Helper: folding `addFiles` state updates appends all created items. -/
theorem foldl_applyAdd_files : ∀ (calls : List AddCall) (s : UploadState),
    (calls.foldl applyAddSet s).files = s.files ++ concatCreated calls
  | [], s => by simp [concatCreated]
  | c :: cs, s => by
      rw [List.foldl_cons, foldl_applyAdd_files cs, concatCreated]
      simp [applyAddSet, addFilesSet]

/-- Claim C7: over any sequence of `addItems` calls starting from the empty
queue, the resulting items sequence is the concatenation of each call's
created items in submission order; each call's state update appends its
items at the tail, leaving every previously present item unchanged in place
and order.  (The drive loop, modelled separately, may advance item statuses
between calls; this is the queue content and order established by the
`addFiles` updates themselves.) -/
theorem addFiles_fifo (calls : List AddCall) :
    (calls.foldl applyAddSet initialState).files = concatCreated calls ∧
    ∀ (s : UploadState) (c : AddCall),
      (applyAddSet s c).files = s.files ++ createdFiles c := by
  constructor
  · rw [foldl_applyAdd_files]
    simp [initialState]
  · intro s c
    rfl

/-- Claim C8: `clearCompleted` keeps exactly the `pending` and `uploading`
items (removing exactly the `success` and `error` ones), preserves the
relative order of the kept items, and leaves the activity flags
untouched. -/
theorem clearCompleted_spec (s : UploadState) :
    (clearCompletedSet s).files.Sublist s.files ∧
    (∀ f : UploadFile, f ∈ (clearCompletedSet s).files ↔
      f ∈ s.files ∧
        (f.status = Status.pending ∨ f.status = Status.uploading)) ∧
    (∀ f ∈ s.files, (f.status = Status.success ∨ f.status = Status.error) →
      f ∉ (clearCompletedSet s).files) ∧
    (clearCompletedSet s).isUploading = s.isUploading ∧
    (clearCompletedSet s).currentUploadingId = s.currentUploadingId := by
  refine ⟨List.filter_sublist _, ?_, ?_, rfl, rfl⟩
  · intro f
    simp [clearCompletedSet, List.mem_filter]
  · intro f hf hse hmem
    have hp := (List.mem_filter.mp hmem).2
    simp at hp
    rcases hse with h | h <;> rcases hp with h2 | h2 <;> simp_all

/-- Witness for the C8 theorem on a queue holding one item of each
status. -/
theorem clearCompleted_spec_witness :
    p8 ∈ (clearCompletedSet s8c).files ∧
    e8 ∉ (clearCompletedSet s8c).files :=
  ⟨((clearCompleted_spec s8c).2.1 p8).mpr ⟨by decide, Or.inl rfl⟩,
   (clearCompleted_spec s8c).2.2.1 e8 (by decide) (Or.inr rfl)⟩

/-- Claim C9: an item added with a truthy precomputed validation error is
created directly in `error` status carrying that message; such an
`addFiles` call performs nothing beyond the queue append (no activation, no
tick, no request); and the drive loop only ever selects and dispatches
`pending` items, so an item in `error` status is never selected nor
dispatched. -/
theorem precomputed_error_spec :
    (∀ (metas : List FileMeta) (bt : String) (dsc : Option String)
        (e : String) (now : Nat), e.isEmpty = false →
      ∀ f ∈ mkNewFiles metas bt dsc (some e) now,
        f.status = Status.error ∧ f.error = some e) ∧
    (∀ (w : World) (metas : List FileMeta) (bt : String)
        (dsc : Option String) (e : String) (now : Nat) (tok : Bool),
      e.isEmpty = false →
      addFilesW w metas bt dsc (some e) now tok =
        { w with store :=
            addFilesSet w.store (mkNewFiles metas bt dsc (some e) now) }) ∧
    (∀ (s : UploadState) (tok : Bool) (s' : UploadState) (id : String)
        (req : Bool),
      processTick s tok = (s', TickEffect.dispatched id req) →
      ∃ f, f ∈ s.files ∧ f.id = id ∧ f.status = Status.pending) ∧
    (∀ (s : UploadState) (f : UploadFile), f ∈ s.files →
      f.status = Status.error → selectPending s ≠ some f) := by
  refine ⟨?_, ?_, ?_, ?_⟩
  · intro metas bt dsc e now he f hf
    rw [mkNewFiles] at hf
    obtain ⟨i, hi, rfl⟩ := List.mem_mapIdx.mp hf
    simp [strOptTruthy, he]
  · intro w metas bt dsc e now tok he
    simp [addFilesW, strOptTruthy, he]
  · intro s tok s' id req h
    obtain ⟨_, f, hsel, hid, _⟩ := processTick_dispatched h
    have hm := selectPending_mem hsel
    exact ⟨f, hm.1, hid, hm.2⟩
  · intro s f hf hst hsel
    have hp := (selectPending_mem hsel).2
    rw [hst] at hp
    exact Status.noConfusion hp

/-- Witness for the C9 theorem: the item created with precomputed error
`"bad file"` at millisecond 7 is in `error` status with that message. -/
theorem precomputed_error_spec_witness :
    errCreated.status = Status.error ∧ errCreated.error = some "bad file" :=
  precomputed_error_spec.1 [pdfMeta] "T" none "bad file" 7 rfl errCreated
    (by decide)

/-- Claim C10: `removeFile(id)` deletes exactly the items bearing that id,
leaves every other item unchanged in place and order, and does not touch
`isUploading` or `currentUploadingId` — so removing the item referenced by
`currentUploadingId` leaves the marker referencing an id no longer present
in the queue. -/
theorem removeFile_frame (s : UploadState) (id : String) :
    (removeFileSet s id).isUploading = s.isUploading ∧
    (removeFileSet s id).currentUploadingId = s.currentUploadingId ∧
    (removeFileSet s id).files.Sublist s.files ∧
    (∀ f : UploadFile, f ∈ (removeFileSet s id).files ↔
      f ∈ s.files ∧ f.id ≠ id) ∧
    (s.currentUploadingId = some id →
      (removeFileSet s id).currentUploadingId = some id ∧
      ∀ f ∈ (removeFileSet s id).files, f.id ≠ id) := by
  refine ⟨rfl, rfl, List.filter_sublist _, ?_, ?_⟩
  · intro f
    simp [removeFileSet, List.mem_filter]
  · intro hcur
    refine ⟨by rw [← hcur]; rfl, ?_⟩
    intro f hf
    have hp := (List.mem_filter.mp hf).2
    simpa using hp

/-- Witness for the C10 theorem: removing the currently uploading item of
`s10c` leaves the marker still set to its id. -/
theorem removeFile_frame_witness :
    (removeFileSet s10c "u").currentUploadingId = some "u" :=
  ((removeFile_frame s10c "u").2.2.2.2 rfl).1
